import Mathlib

/-!
# Verification of the MBTiles map renderer (`src/map/mbtilesmap.cpp`)

A shallow embedding of the MBTiles map component: the constructor's schema
and zoom-metadata validation, the zoom state machine (`limitZoom`, `zoomIn`,
`zoomOut`, `zoomFit`), the geographic-bounds computation, the tile-row
origin conversion used by `tileData`, the tile-enumeration extent of `draw`,
and the display coordinate conversions `ll2xy` / `xy2ll`.

C++ `double` arithmetic is embedded as exact real (`ℝ`) arithmetic; C++
`int` as `ℤ` (with `1 << z` embedded as `2 ^ z`, valid in the representable
range).  The collaborator functions declared in headers that are outside
this component (`osm::ll2m`, `osm::m2ll`, `osm::scale2zoom`,
`osm::zoom2scale`) are taken as explicit function parameters, so every
theorem about code that calls them holds for every possible collaborator.
Qt's SQL layer is embedded as a passive data model (`DBModel`): the record
of the `tiles` table, the result row of the min/max zoom query, and the
tile-index extrema row, exactly the data the constructor reads.
-/

namespace MBTiles

/-! ## Geometry data types -/

/-- A geographic coordinate in degrees (`Coordinates` of `common/coordinates.h`,
used by the component through `lon()` / `lat()` / `rlat()`). -/
structure Coordinates where
  lon : ℝ
  lat : ℝ

/-- Modelled from the spec: `RectC` (`common/rectc.h`, not under `src/`) is a
rectangle in geographic coordinates given by its top-left and bottom-right
corners; the spec uses its validity only as "invalid (e.g., empty/unset)", so
validity is embedded as an explicit flag (`valid = false` models a
default-constructed/unset rectangle). -/
structure RectC where
  tl : Coordinates
  br : Coordinates
  valid : Bool

/-- A point of the projected planar (Web-Mercator-like) coordinate system or
of the display coordinate system (`QPointF`): x, then y. -/
abbrev Pt := ℝ × ℝ

/-- Modelled from the spec: `Range` (`common/range.h`, not under `src/`): an
inclusive integer interval with `min`/`max` accessors. -/
structure Range where
  min : ℤ
  max : ℤ

/-- Modelled from the spec: `Range::isValid` — the interval is non-degenerate,
`min ≤ max` ("invariant: min ≥ 0 and min ≤ max"; the `min ≥ 0` half is checked
separately by the constructor as `_zooms.min() < 0`). -/
def Range.isValid (r : Range) : Bool := r.min ≤ r.max

/-! ## The SQL container model -/

/-- The Qt meta-type of a column, as compared by the constructor
(`QMetaType::Int` / `QMetaType::QByteArray` / anything else). -/
inductive SqlColType where
  | intCol : SqlColType
  | byteArrayCol : SqlColType
  | otherCol : SqlColType
deriving DecidableEq

/-- One column of a table record: its name and meta-type (`QSqlField`). -/
structure SqlField where
  name : String
  type : SqlColType

/-- `QSqlRecord::field(i)` past the end returns a default-constructed field
(empty name, invalid type), which then fails the name comparison. -/
def fieldAt (r : List SqlField) (i : ℕ) : SqlField :=
  r.getD i ⟨"", SqlColType.otherCol⟩

/-- The data the constructor reads from the SQLite container:
whether `_db.open()` succeeds, the record of the `tiles` table (empty list =
`QSqlRecord::isEmpty`), the result row of
`SELECT min(zoom_level), max(zoom_level) FROM tiles` (`none` = `query.first()`
fails), and the values of `SELECT min(tile_column), min(tile_row),
max(tile_column), max(tile_row) FROM tiles WHERE zoom_level = zmin`
(as read by `query.value(i).toInt()`). -/
structure DBModel where
  openOk : Bool
  tilesRecord : List SqlField
  zoomLevels : Option (ℤ × ℤ)
  minCol : ℤ
  minRow : ℤ
  maxCol : ℤ
  maxRow : ℤ

/-- The constructor's schema signature check: the first four columns of the
`tiles` record must be `zoom_level : Int`, `tile_column : Int`,
`tile_row : Int`, `tile_data : QByteArray` (the negation of the `if` at
`mbtilesmap.cpp:34-44`). -/
def schemaOk (r : List SqlField) : Bool :=
  !r.isEmpty
    && (fieldAt r 0).name == "zoom_level"
    && decide ((fieldAt r 0).type = SqlColType.intCol)
    && (fieldAt r 1).name == "tile_column"
    && decide ((fieldAt r 1).type = SqlColType.intCol)
    && (fieldAt r 2).name == "tile_row"
    && decide ((fieldAt r 2).type = SqlColType.intCol)
    && (fieldAt r 3).name == "tile_data"
    && decide ((fieldAt r 3).type = SqlColType.byteArrayCol)

/-! ## The projection helpers written in `mbtilesmap.cpp` -/

/-- Modelled from the spec: `rad2deg` (`common/wgs84.h`, not under `src/`):
degrees = radians · 180/π. -/
noncomputable def rad2deg (x : ℝ) : ℝ := x * (180 / Real.pi)

/-- `index2mercator` (`mbtilesmap.cpp:16-19`): the western-edge longitude of
tile column `index` at zoom `zoom`,
`rad2deg(-M_PI + 2 * M_PI * ((double)index / (1 << zoom)))`. -/
noncomputable def index2mercator (index : ℤ) (zoom : ℕ) : ℝ :=
  rad2deg (-Real.pi + 2 * Real.pi * ((index : ℝ) / (2 ^ zoom)))

/-! ## The map-object state -/

/-- The fields of `MBTilesMap` that the verified operations read or write.
`dbOpen` tracks whether the SQLite connection is currently open. -/
structure MBTilesMap where
  fileName : String
  deviceRatio : ℝ
  tileRatio : ℝ
  valid : Bool
  errorString : String
  zooms : Range
  zoom : ℤ
  bounds : RectC
  dbOpen : Bool

/-- The member-initializer list of the constructor:
`_deviceRatio(1.0), _tileRatio(1.0), _valid(false)`; `_errorString`, `_zooms`,
`_zoom` and `_bounds` start default-constructed (their defaults are never
read on any path the claims touch). -/
def initMap (fileName : String) : MBTilesMap where
  fileName := fileName
  deviceRatio := 1
  tileRatio := 1
  valid := false
  errorString := ""
  zooms := ⟨0, 0⟩
  zoom := 0
  bounds := ⟨⟨0, 0⟩, ⟨0, 0⟩, false⟩
  dbOpen := false

/-- `MBTilesMap::coordinatesRatio` (`mbtilesmap.cpp:155-158`):
`_deviceRatio > 1.0 ? _deviceRatio / _tileRatio : 1.0`. -/
noncomputable def coordinatesRatio (s : MBTilesMap) : ℝ :=
  if s.deviceRatio > 1 then s.deviceRatio / s.tileRatio else 1

/-- `MBTilesMap::imageRatio` (`mbtilesmap.cpp:160-163`):
`_deviceRatio > 1.0 ? _deviceRatio : _tileRatio`. -/
noncomputable def imageRatio (s : MBTilesMap) : ℝ :=
  if s.deviceRatio > 1 then s.deviceRatio else s.tileRatio

/-- The geographic-bounds computation of the constructor
(`mbtilesmap.cpp:62-83`): the tile-index extrema at the minimum zoom are
clamped into `[0, 2^zmin - 1]`, converted to planar longitudes by
`index2mercator` (the maxima shifted by one to the tiles' far edge),
unprojected by `osm::m2ll` (a parameter, declared in `osm.h` outside this
component), and the resulting latitudes clamped to ±85.0511. -/
noncomputable def constructBounds (m2ll : Pt → Coordinates) (zmin : ℤ)
    (db : DBModel) : RectC :=
  let n : ℤ := 2 ^ zmin.toNat
  let minX := index2mercator (min (n - 1) (max 0 db.minCol)) zmin.toNat
  let minY := index2mercator (min (n - 1) (max 0 db.minRow)) zmin.toNat
  let maxX := index2mercator (min (n - 1) (max 0 db.maxCol) + 1) zmin.toNat
  let maxY := index2mercator (min (n - 1) (max 0 db.maxRow) + 1) zmin.toNat
  let tl := m2ll (minX, maxY)
  let br := m2ll (maxX, minY)
  ⟨⟨tl.lon, min tl.lat 85.0511⟩, ⟨br.lon, max br.lat (-85.0511)⟩, true⟩

/-- `MBTilesMap::MBTilesMap` (`mbtilesmap.cpp:21-88`): open the database,
check the `tiles` schema signature, read the zoom range, validate it, set
`_zoom = _zooms.max()`, compute `_bounds`, close the database and set
`_valid = true`; each failed check returns early with `_valid` still false
and `_errorString` set (on the early returns after a successful open the
connection is left open).  Total function: an invalid object is a value,
not a crash. -/
noncomputable def construct (m2ll : Pt → Coordinates) (fileName : String)
    (db : DBModel) : MBTilesMap :=
  let s0 := initMap fileName
  if !db.openOk then
    { s0 with errorString := fileName ++ ": Error opening database file" }
  else if !schemaOk db.tilesRecord then
    { s0 with errorString := "Invalid table format", dbOpen := true }
  else
    match db.zoomLevels with
    | none => { s0 with errorString := "Empty tile set", dbOpen := true }
    | some zz =>
      if zz.1 < 0 || !(Range.isValid ⟨zz.1, zz.2⟩) then
        { s0 with errorString := "Invalid zoom levels", dbOpen := true }
      else
        { s0 with
          zooms := ⟨zz.1, zz.2⟩
          zoom := zz.2
          bounds := constructBounds m2ll zz.1 db
          valid := true
          dbOpen := false }

/-- `MBTilesMap::load` (`mbtilesmap.cpp:95-98`): `_db.open();` — opens the
connection and nothing else. -/
def load (s : MBTilesMap) : MBTilesMap := { s with dbOpen := true }

/-- `MBTilesMap::unload` (`mbtilesmap.cpp:100-103`): `_db.close();`. -/
def unload (s : MBTilesMap) : MBTilesMap := { s with dbOpen := false }

/-- `MBTilesMap::limitZoom` (`mbtilesmap.cpp:110-118`): clamp a zoom into
`[_zooms.min(), _zooms.max()]`. -/
def limitZoom (zooms : Range) (z : ℤ) : ℤ :=
  if z < zooms.min then zooms.min
  else if z > zooms.max then zooms.max
  else z

/-- `MBTilesMap::zoomIn` (`mbtilesmap.cpp:142-146`):
`_zoom = qMin(_zoom + 1, _zooms.max()); return _zoom;`. -/
def zoomIn (s : MBTilesMap) : MBTilesMap :=
  { s with zoom := min (s.zoom + 1) s.zooms.max }

/-- `MBTilesMap::zoomOut` (`mbtilesmap.cpp:148-152`):
`_zoom = qMax(_zoom - 1, _zooms.min()); return _zoom;`. -/
def zoomOut (s : MBTilesMap) : MBTilesMap :=
  { s with zoom := max (s.zoom - 1) s.zooms.min }

/-- `MBTilesMap::zoomFit` (`mbtilesmap.cpp:120-132`).  `ll2m` (the forward
projection) and `scale2zoom` are declared in `osm.h` outside this component
and are taken as parameters.  `QRectF tbr(ll2m(rect.topLeft()),
ll2m(rect.bottomRight()))` has width `br.x − tl.x` and height `br.y − tl.y`;
`size` is the viewport size (width, height).  The new `_zoom` is stored in
the state and is also the C++ return value. -/
noncomputable def zoomFit (ll2m : Coordinates → Pt) (scale2zoom : ℝ → ℤ)
    (s : MBTilesMap) (size : Pt) (rect : RectC) : MBTilesMap :=
  if !rect.valid then { s with zoom := s.zooms.max }
  else
    let tl := ll2m rect.tl
    let br := ll2m rect.br
    let sc : Pt := ((br.1 - tl.1) / size.1, (br.2 - tl.2) / size.2)
    { s with zoom := limitZoom s.zooms (scale2zoom (max sc.1 (-sc.2) / coordinatesRatio s)) }

/-! ## Tile data access and the draw loop -/

/-- The row conversion performed by `MBTilesMap::tileData`
(`mbtilesmap.cpp:175`): the display grid indexes rows from the top
southward, the storage source from the bottom northward, so the blob query
binds `:y` to `(1 << zoom) - tile.y() - 1`. -/
def displayRow2storageRow (zoom : ℕ) (row : ℤ) : ℤ :=
  2 ^ zoom - row - 1

/-- `MBTilesMap::tileData` (`mbtilesmap.cpp:169-183`): fetch the blob stored
under `(zoom, tile.x, (1<<zoom) - tile.y - 1)`; an absent row yields the
empty `QByteArray`.  The SQLite lookup is embedded as the function
`fetch : zoom → column → storage row → Option blob`. -/
def tileData (fetch : ℤ → ℤ → ℤ → Option (List ℕ)) (zoom : ℕ)
    (tile : ℤ × ℤ) : List ℕ :=
  match fetch zoom tile.1 (displayRow2storageRow zoom tile.2) with
  | some blob => blob
  | none => []

/-- Modelled from the spec: the reference tile size `TILE_SIZE`
(defined in `osm.h`, not under `src/`); the spec calls it
"a reference tile size (commonly 256)". -/
def TILE_SIZE : ℝ := 256

/-- `MBTilesMap::tileSize` (`mbtilesmap.cpp:165-168`):
`TILE_SIZE / coordinatesRatio()`. -/
noncomputable def tileSize (s : MBTilesMap) : ℝ := TILE_SIZE / coordinatesRatio s

/-- An axis-aligned rectangle of the display coordinate plane (`QRectF`),
as used by `MBTilesMap::draw`: y grows downward, so `top ≤ bottom` for a
non-empty rectangle.  `QRectF(topLeft, bottomRight)` does not normalise, so
width = `right − left` and height = `bottom − top` as stored. -/
structure DispRect where
  left : ℝ
  top : ℝ
  right : ℝ
  bottom : ℝ

/-- Width of a `QRectF`. -/
noncomputable def DispRect.width (r : DispRect) : ℝ := r.right - r.left

/-- Height of a `QRectF`. -/
noncomputable def DispRect.height (r : DispRect) : ℝ := r.bottom - r.top

/-- The viewport rectangle lies fully outside (is disjoint from) the
projected map bounds rectangle. -/
def DispRect.outside (r b : DispRect) : Prop :=
  r.right < b.left ∨ b.right < r.left ∨ r.bottom < b.top ∨ b.bottom < r.top

/-- The number of iterations of the tile loop of `MBTilesMap::draw`
(`mbtilesmap.cpp:185-220`), each iteration being one cache lookup and, on a
cache miss, one `tileData` fetch: with `b = bounds()`,
`tl = (floor(rect.left/tileSize)·tileSize, floor(rect.top/tileSize)·tileSize)`
and `s = (min(rect.right − tl.x, b.width), min(rect.bottom − tl.y, b.height))`,
the loop runs `i` over `0 ≤ i < ceil(s.width/tileSize)` and `j` over
`0 ≤ j < ceil(s.height/tileSize)`. -/
noncomputable def drawTileCount (rect b : DispRect) (ts : ℝ) : ℤ :=
  max 0 ⌈min (rect.right - (⌊rect.left / ts⌋ : ℝ) * ts) b.width / ts⌉ *
    max 0 ⌈min (rect.bottom - (⌊rect.top / ts⌋ : ℝ) * ts) b.height / ts⌉

/-! ## Display coordinate conversions -/

/-- `MBTilesMap::ll2xy` (`mbtilesmap.cpp:222-227`):
`QPointF(m.x()/scale, m.y() / -scale) / coordinatesRatio()` with
`m = osm::ll2m(c)`; at a fixed `CurrentZoom`, `scale = osm::zoom2scale(_zoom)`
is a fixed real, so `ll2m`, `scale` and the ratio are parameters. -/
noncomputable def ll2xy (ll2m : Coordinates → Pt) (scale ratio : ℝ)
    (c : Coordinates) : Pt :=
  ((ll2m c).1 / scale / ratio, (ll2m c).2 / (-scale) / ratio)

/-- `MBTilesMap::xy2ll` (`mbtilesmap.cpp:229-234`):
`osm::m2ll(QPointF(p.x()*scale, -p.y()*scale) * coordinatesRatio())`. -/
noncomputable def xy2ll (m2ll : Pt → Coordinates) (scale ratio : ℝ)
    (p : Pt) : Coordinates :=
  m2ll (p.1 * scale * ratio, -p.2 * scale * ratio)

/-! ## Spec-side success condition and helper lemmas -/

/-- The claim's success condition for construction, stated in the spec's own
words (to be compared against `construct`, which is translated from the
code): the database opens, the `tiles` table has the four required columns
with the specified names and types, the tile set is non-empty (the zoom
query returns a row), the minimum zoom is non-negative and the zoom range is
non-degenerate. -/
def constructSucceedsSpec (db : DBModel) : Bool :=
  db.openOk && schemaOk db.tilesRecord &&
    (match db.zoomLevels with
     | none => false
     | some zz => decide (0 ≤ zz.1) && decide (zz.1 ≤ zz.2))

theorem construct_valid_eq (m2ll : Pt → Coordinates) (fn : String)
    (db : DBModel) :
    (construct m2ll fn db).valid = constructSucceedsSpec db := by
  unfold construct constructSucceedsSpec
  cases h1 : db.openOk
  · simp [initMap]
  cases h2 : schemaOk db.tilesRecord
  · simp [initMap]
  rcases h3 : db.zoomLevels with _ | ⟨a, b⟩
  · simp [initMap]
  · simp only [Bool.not_true, Bool.false_eq_true, if_false, Bool.true_and]
    split_ifs with h4 <;> simp [Range.isValid, initMap] at h4 ⊢ <;> omega

theorem construct_error_of_invalid (m2ll : Pt → Coordinates) (fn : String)
    (db : DBModel) (h : (construct m2ll fn db).valid = false) :
    (construct m2ll fn db).errorString ≠ "" := by
  revert h
  unfold construct
  cases h1 : db.openOk
  · intro _ hc
    have hlen := congrArg String.length hc
    simp only [Bool.not_false, if_true] at hlen
    rw [String.length_append] at hlen
    have h29 : (": Error opening database file").length = 29 := by decide
    have h0 : ("" : String).length = 0 := by decide
    omega
  cases h2 : schemaOk db.tilesRecord
  · intro _
    simp
  rcases h3 : db.zoomLevels with _ | ⟨a, b⟩
  · intro _
    simp
  · simp only [Bool.not_true, Bool.false_eq_true, if_false]
    split_ifs with h4
    · intro _
      simp
    · intro h
      simp [initMap] at h

theorem construct_success_zoom (m2ll : Pt → Coordinates) (fn : String)
    (db : DBModel) (h : (construct m2ll fn db).valid = true) :
    (construct m2ll fn db).zoom = (construct m2ll fn db).zooms.max ∧
    (construct m2ll fn db).zooms.min ≤ (construct m2ll fn db).zooms.max := by
  revert h
  unfold construct
  cases h1 : db.openOk
  · intro h; simp [initMap] at h
  cases h2 : schemaOk db.tilesRecord
  · intro h; simp [initMap] at h
  rcases h3 : db.zoomLevels with _ | ⟨a, b⟩
  · intro h; simp [initMap] at h
  · simp only [Bool.not_true, Bool.false_eq_true, if_false]
    split_ifs with h4
    · intro h; simp [initMap] at h
    · intro _
      simp [Range.isValid] at h4
      refine ⟨rfl, ?_⟩
      show a ≤ b
      omega

/-! ## Theorems -/

/-- Companion bound for `limitZoom`: on a non-degenerate range the clamped
zoom lies inside the range. -/
theorem limitZoom_bounds (zooms : Range) (h : zooms.min ≤ zooms.max)
    (z : ℤ) : zooms.min ≤ limitZoom zooms z ∧ limitZoom zooms z ≤ zooms.max := by
  simp only [limitZoom]
  split_ifs <;> omega

/-- A concrete valid map state used by witnesses: zoom range [2, 7], current
zoom 7. -/
def demoMap : MBTilesMap where
  fileName := "demo.mbtiles"
  deviceRatio := 1
  tileRatio := 1
  valid := true
  errorString := ""
  zooms := ⟨2, 7⟩
  zoom := 7
  bounds := ⟨⟨0, 0⟩, ⟨0, 0⟩, true⟩
  dbOpen := false

/-- A concrete container matching the spec's example: the required schema,
zoom range [0, 5], one tile at zoom 0 covering the whole world. -/
def dbDemo : DBModel where
  openOk := true
  tilesRecord :=
    [⟨"zoom_level", SqlColType.intCol⟩, ⟨"tile_column", SqlColType.intCol⟩,
     ⟨"tile_row", SqlColType.intCol⟩, ⟨"tile_data", SqlColType.byteArrayCol⟩]
  zoomLevels := some (0, 5)
  minCol := 0
  minRow := 0
  maxCol := 0
  maxRow := 0

/-- The identity-like unprojection used by witnesses (the theorems hold for
every `m2ll`). -/
def m2llDemo : Pt → Coordinates := fun p => ⟨p.1, p.2⟩

/-- The identity-like forward projection used by witnesses (the theorems
hold for every `ll2m`). -/
def ll2mDemo : Coordinates → Pt := fun c => (c.lon, c.lat)

/-- `1 ≤ a·b` for integers at least one each. -/
theorem one_le_mul_int {a b : ℤ} (ha : 1 ≤ a) (hb : 1 ≤ b) : 1 ≤ a * b := by
  nlinarith

/-- C1: construction fails — `valid` stays false and a non-empty error
string is stored, the object still a total value — exactly when the database
cannot be opened, the `tiles` table lacks the four required columns with the
specified names and types, the tile set is empty, the minimum zoom is
negative, or the zoom range is degenerate; on success the map is valid and
`CurrentZoom` equals `ZoomRange.max`.  (`constructSucceedsSpec` is the
claim's success condition in the spec's words.) -/
theorem construct_validity (m2ll : Pt → Coordinates) (fn : String)
    (db : DBModel) :
    ((construct m2ll fn db).valid = constructSucceedsSpec db) ∧
    ((construct m2ll fn db).valid = false →
      (construct m2ll fn db).errorString ≠ "") ∧
    ((construct m2ll fn db).valid = true →
      (construct m2ll fn db).zoom = (construct m2ll fn db).zooms.max) :=
  ⟨construct_valid_eq m2ll fn db, construct_error_of_invalid m2ll fn db,
   fun h => (construct_success_zoom m2ll fn db h).1⟩

/-- C2: for a valid map (`zooms.min ≤ zooms.max`, established at
construction) `CurrentZoom` stays within `ZoomRange` after every mutation:
`zoomIn` and `zoomOut` clamp into the range (given the invariant held
before), `zoomIn` at `ZoomRange.max` returns `ZoomRange.max`, `zoomOut` at
`ZoomRange.min` returns `ZoomRange.min`, `zoomFit` always lands in the
range, and construction sets `CurrentZoom = ZoomRange.max`. -/
theorem currentZoom_in_range (s : MBTilesMap)
    (h : s.zooms.min ≤ s.zooms.max) :
    (s.zooms.min ≤ s.zoom →
      s.zooms.min ≤ (zoomIn s).zoom ∧ (zoomIn s).zoom ≤ s.zooms.max) ∧
    (s.zoom ≤ s.zooms.max →
      s.zooms.min ≤ (zoomOut s).zoom ∧ (zoomOut s).zoom ≤ s.zooms.max) ∧
    (s.zoom = s.zooms.max → (zoomIn s).zoom = s.zooms.max) ∧
    (s.zoom = s.zooms.min → (zoomOut s).zoom = s.zooms.min) ∧
    (∀ (ll2m : Coordinates → Pt) (s2z : ℝ → ℤ) (size : Pt) (rect : RectC),
      s.zooms.min ≤ (zoomFit ll2m s2z s size rect).zoom ∧
      (zoomFit ll2m s2z s size rect).zoom ≤ s.zooms.max) ∧
    (∀ (m2ll : Pt → Coordinates) (fn : String) (db : DBModel),
      (construct m2ll fn db).valid = true →
      (construct m2ll fn db).zoom = (construct m2ll fn db).zooms.max) := by
  refine ⟨fun h1 => ?_, fun h1 => ?_, fun h1 => ?_, fun h1 => ?_,
    fun ll2m s2z size rect => ?_,
    fun m2ll fn db hv => (construct_success_zoom m2ll fn db hv).1⟩
  · simp only [zoomIn]; omega
  · simp only [zoomOut]; omega
  · simp only [zoomIn]; omega
  · simp only [zoomOut]; omega
  · simp only [zoomFit]
    split_ifs
    · exact ⟨h, le_refl _⟩
    · exact limitZoom_bounds s.zooms h _

/-- C2 witness: the zoom mutations evaluated on the concrete map with zoom
range [2, 7] and current zoom 7. -/
theorem currentZoom_in_range_witness :
    (zoomIn demoMap).zoom = demoMap.zooms.max ∧
    (zoomOut demoMap).zoom ≤ demoMap.zooms.max :=
  ⟨(currentZoom_in_range demoMap (by decide)).2.2.1 (by decide),
   ((currentZoom_in_range demoMap (by decide)).2.1 (by decide)).2⟩

/-- C3: `zoomFit` on an invalid rectangle sets `CurrentZoom = ZoomRange.max`;
otherwise it sets `CurrentZoom = limitZoom (scale2zoom (max
(projectedWidth / viewportWidth) (−projectedHeight / viewportHeight) /
coordinatesRatio))`, the projected width/height being the coordinate
differences of the projected top-left and bottom-right corners of the
rectangle.  (The stored zoom is also the C++ return value.) -/
theorem zoomFit_formula (ll2m : Coordinates → Pt) (s2z : ℝ → ℤ)
    (s : MBTilesMap) (size : Pt) (rect : RectC) :
    (rect.valid = false → (zoomFit ll2m s2z s size rect).zoom = s.zooms.max) ∧
    (rect.valid = true → (zoomFit ll2m s2z s size rect).zoom =
      limitZoom s.zooms (s2z (max
        (((ll2m rect.br).1 - (ll2m rect.tl).1) / size.1)
        (-(((ll2m rect.br).2 - (ll2m rect.tl).2) / size.2)) /
        coordinatesRatio s))) := by
  constructor <;> intro h <;> simp [zoomFit, h]

/-- C5: `limitZoom` is idempotent — for all integers `z`,
`limitZoom (limitZoom z) = limitZoom z` — and for `z` outside `ZoomRange` the
result equals the nearer bound (`min` when `z < min`, `max` when `z > max`),
while any `z` inside `ZoomRange` is returned unchanged.  (`ZoomRange`
satisfies `min ≤ max` on every valid map: a degenerate range fails
construction.) -/
theorem limitZoom_idempotent_clamp (zooms : Range)
    (h : zooms.min ≤ zooms.max) :
    (∀ z, limitZoom zooms (limitZoom zooms z) = limitZoom zooms z) ∧
    (∀ z, z < zooms.min → limitZoom zooms z = zooms.min) ∧
    (∀ z, z > zooms.max → limitZoom zooms z = zooms.max) ∧
    (∀ z, zooms.min ≤ z → z ≤ zooms.max → limitZoom zooms z = z) := by
  refine ⟨fun z => ?_, fun z hz => ?_, fun z hz => ?_, fun z h1 h2 => ?_⟩ <;>
    simp only [limitZoom] <;> split_ifs <;> omega

/-- C5 witness: the clamp evaluated on the concrete range [0, 5]. -/
theorem limitZoom_idempotent_clamp_witness :
    limitZoom ⟨0, 5⟩ (limitZoom ⟨0, 5⟩ 9) = limitZoom ⟨0, 5⟩ 9 ∧
    limitZoom ⟨0, 5⟩ (-2) = 0 ∧ limitZoom ⟨0, 5⟩ 9 = 5 ∧ limitZoom ⟨0, 5⟩ 3 = 3 :=
  ⟨(limitZoom_idempotent_clamp ⟨0, 5⟩ (by decide)).1 9,
   (limitZoom_idempotent_clamp ⟨0, 5⟩ (by decide)).2.1 (-2) (by decide),
   (limitZoom_idempotent_clamp ⟨0, 5⟩ (by decide)).2.2.1 9 (by decide),
   (limitZoom_idempotent_clamp ⟨0, 5⟩ (by decide)).2.2.2 3 (by decide) (by decide)⟩

/-- C6: the display-row to storage-row conversion used when fetching a tile
blob is `storageRow = 2^zoom − displayRow − 1`, it is its own inverse on
`[0, 2^zoom − 1]`, and `tileData` queries the storage row obtained from it. -/
theorem displayRow2storageRow_involutive (z : ℕ) (r : ℤ)
    (h0 : 0 ≤ r) (h1 : r ≤ 2 ^ z - 1) :
    displayRow2storageRow z r = 2 ^ z - r - 1 ∧
    displayRow2storageRow z (displayRow2storageRow z r) = r ∧
    ∀ (fetch : ℤ → ℤ → ℤ → Option (List ℕ)) (x : ℤ),
      tileData fetch z (x, r) = (fetch z x (displayRow2storageRow z r)).getD [] := by
  refine ⟨rfl, by simp only [displayRow2storageRow]; omega, fun fetch x => ?_⟩
  simp only [tileData]
  cases fetch z x (displayRow2storageRow z r) <;> rfl

/-- C6 witness: the conversion evaluated at zoom 3, row 5. -/
theorem displayRow2storageRow_involutive_witness :
    displayRow2storageRow 3 5 = 2 ∧
    displayRow2storageRow 3 (displayRow2storageRow 3 5) = 5 :=
  ⟨(displayRow2storageRow_involutive 3 5 (by decide) (by decide)).1,
   (displayRow2storageRow_involutive 3 5 (by decide) (by decide)).2.1⟩

/-- C9: the tile-column-index to longitude conversion `index2mercator`
returns exactly `-180 + 360 · index / 2^zoom` degrees, in exact real
arithmetic, for every integer index and every zoom ≥ 0 (embedded as `ℕ`;
the C++ `1 << zoom` is exact in the representable range). -/
theorem index2mercator_eq (index : ℤ) (zoom : ℕ) :
    index2mercator index zoom = -180 + 360 * (index : ℝ) / 2 ^ zoom := by
  have hπ : Real.pi ≠ 0 := Real.pi_ne_zero
  have h2 : (2 : ℝ) ^ zoom ≠ 0 := pow_ne_zero _ two_ne_zero
  field_simp [index2mercator, rad2deg]
  ring

/-- C8: `load` opens and `unload` closes the connection; neither changes any
derived state (zoom range, current zoom, bounds, ratios, validity, error
string, file name), and each is idempotent. -/
theorem load_unload_frame (s : MBTilesMap) :
    (load s).zooms = s.zooms ∧ (load s).zoom = s.zoom ∧
    (load s).bounds = s.bounds ∧ (load s).deviceRatio = s.deviceRatio ∧
    (load s).tileRatio = s.tileRatio ∧ (load s).valid = s.valid ∧
    (load s).errorString = s.errorString ∧ (load s).fileName = s.fileName ∧
    (unload s).zooms = s.zooms ∧ (unload s).zoom = s.zoom ∧
    (unload s).bounds = s.bounds ∧ (unload s).deviceRatio = s.deviceRatio ∧
    (unload s).tileRatio = s.tileRatio ∧ (unload s).valid = s.valid ∧
    (unload s).errorString = s.errorString ∧ (unload s).fileName = s.fileName ∧
    (load s).dbOpen = true ∧ (unload s).dbOpen = false ∧
    load (load s) = load s ∧ unload (unload s) = unload s ∧
    load (unload (load s)) = load s ∧ unload (load (unload s)) = unload s :=
  ⟨rfl, rfl, rfl, rfl, rfl, rfl, rfl, rfl, rfl, rfl, rfl, rfl, rfl, rfl,
   rfl, rfl, rfl, rfl, rfl, rfl, rfl, rfl⟩

/-- C7: for every tile container (whatever tile extrema its metadata
reports) and every unprojection `m2ll`, the `GeoBounds` computed at
construction of a valid map has top-left latitude ≤ 85.0511° and
bottom-right latitude ≥ −85.0511° (the constructor clamps both after
unprojecting). -/
theorem geoBounds_lat_clamped (m2ll : Pt → Coordinates) (fn : String)
    (db : DBModel) (h : (construct m2ll fn db).valid = true) :
    (construct m2ll fn db).bounds.tl.lat ≤ 85.0511 ∧
    -85.0511 ≤ (construct m2ll fn db).bounds.br.lat := by
  revert h
  unfold construct
  cases h1 : db.openOk
  · intro h; simp [initMap] at h
  cases h2 : schemaOk db.tilesRecord
  · intro h; simp [initMap] at h
  rcases h3 : db.zoomLevels with _ | ⟨a, b⟩
  · intro h; simp [initMap] at h
  · simp only [Bool.not_true, Bool.false_eq_true, if_false]
    split_ifs with h4
    · intro h; simp [initMap] at h
    · intro _
      constructor
      · show (constructBounds m2ll a db).tl.lat ≤ 85.0511
        simp only [constructBounds]
        exact min_le_right _ _
      · show -85.0511 ≤ (constructBounds m2ll a db).br.lat
        simp only [constructBounds]
        exact le_max_right _ _

/-- C7 witness: the spec's example container — zoom range [0, 5], one tile
at zoom 0 covering the whole world — evaluated with a concrete
unprojection. -/
theorem geoBounds_lat_clamped_witness :
    (construct m2llDemo "demo.mbtiles" dbDemo).bounds.tl.lat ≤ 85.0511 ∧
    -85.0511 ≤ (construct m2llDemo "demo.mbtiles" dbDemo).bounds.br.lat :=
  geoBounds_lat_clamped m2llDemo "demo.mbtiles" dbDemo
    (by rw [construct_valid_eq]; decide)

/-- C10: at a fixed `CurrentZoom` (fixed non-zero `scale`) and a fixed
non-zero coordinates ratio, `ll2xy` and `xy2ll` are mutual inverses, in
exact real arithmetic, wherever the underlying projection pair
(`ll2m`, `m2ll`) inverts: `xy2ll (ll2xy c) = c` for every geographic
coordinate with |latitude| ≤ 85.0511° on which `m2ll ∘ ll2m` is the
identity, and `ll2xy (xy2ll p) = p` for every display point on whose
projected image `ll2m ∘ m2ll` is the identity. -/
theorem ll2xy_xy2ll_inverse (ll2m : Coordinates → Pt) (m2ll : Pt → Coordinates)
    (scale ratio : ℝ) (hs : scale ≠ 0) (hr : ratio ≠ 0) :
    (∀ c : Coordinates, |c.lat| ≤ 85.0511 → m2ll (ll2m c) = c →
      xy2ll m2ll scale ratio (ll2xy ll2m scale ratio c) = c) ∧
    (∀ p : Pt,
      ll2m (m2ll (p.1 * scale * ratio, -p.2 * scale * ratio)) =
        (p.1 * scale * ratio, -p.2 * scale * ratio) →
      ll2xy ll2m scale ratio (xy2ll m2ll scale ratio p) = p) := by
  constructor
  · intro c _ hinv
    simp only [ll2xy, xy2ll]
    have harg : ((ll2m c).1 / scale / ratio * scale * ratio,
        -((ll2m c).2 / (-scale) / ratio) * scale * ratio) = ll2m c := by
      have e1 : (ll2m c).1 / scale / ratio * scale * ratio = (ll2m c).1 := by
        field_simp
        ring
      have e2 : -((ll2m c).2 / (-scale) / ratio) * scale * ratio =
          (ll2m c).2 := by
        field_simp
        ring
      rw [e1, e2]
    rw [harg, hinv]
  · intro p hinv
    simp only [ll2xy, xy2ll]
    rw [hinv]
    have e1 : p.1 * scale * ratio / scale / ratio = p.1 := by
      field_simp
      ring
    have e2 : -p.2 * scale * ratio / (-scale) / ratio = p.2 := by
      field_simp
      ring
    rw [e1, e2]

/-- C10 witness: the round trips evaluated at scale 1, ratio 1, with the
identity projection pair, at the coordinate (10°, 50°) and the display
point (3, 4). -/
theorem ll2xy_xy2ll_inverse_witness :
    xy2ll m2llDemo 1 1 (ll2xy ll2mDemo 1 1 ⟨10, 50⟩) = ⟨10, 50⟩ ∧
    ll2xy ll2mDemo 1 1 (xy2ll m2llDemo 1 1 (3, 4)) = (3, 4) :=
  ⟨(ll2xy_xy2ll_inverse ll2mDemo m2llDemo 1 1 one_ne_zero one_ne_zero).1
      ⟨10, 50⟩ (by norm_num) rfl,
   (ll2xy_xy2ll_inverse ll2mDemo m2llDemo 1 1 one_ne_zero one_ne_zero).2
      (3, 4) rfl⟩

/-- C4 counterexample: a viewport fully outside the projected bounds on
which `draw` still enumerates one tile (the loop bound caps the extent by
the bounds' width/height but not by its position): viewport
[512, 768] × [512, 768], bounds [0, 256] × [0, 256], tile size 256. -/
theorem draw_outside_counterexample :
    DispRect.outside ⟨512, 512, 768, 768⟩ ⟨0, 0, 256, 256⟩ ∧
    drawTileCount ⟨512, 512, 768, 768⟩ ⟨0, 0, 256, 256⟩ 256 = 1 := by
  constructor
  · norm_num [DispRect.outside]
  · norm_num [drawTileCount, DispRect.width, DispRect.height]

/-- C4 amended: `draw` over a non-empty viewport with non-degenerate
projected bounds always enumerates at least one tile — also when the
viewport lies fully outside the projected `GeoBounds`: the loop bound caps
the enumerated extent by the bounds' size, not by its position, so the
claimed zero-tile enumeration does not hold; each enumerated tile outside
the tile set merely fetches an absent blob and draws nothing. -/
theorem drawTileCount_pos (rect b : DispRect) (ts : ℝ) (hts : 0 < ts)
    (hrw : rect.left < rect.right) (hrh : rect.top < rect.bottom)
    (hbw : b.left < b.right) (hbh : b.top < b.bottom)
    (hout : DispRect.outside rect b) :
    1 ≤ drawTileCount rect b ts := by
  simp only [drawTileCount, DispRect.width, DispRect.height]
  have hfx : (⌊rect.left / ts⌋ : ℝ) * ts ≤ rect.left := by
    have h := Int.floor_le (rect.left / ts)
    have h2 := mul_le_mul_of_nonneg_right h hts.le
    rwa [div_mul_cancel₀ _ hts.ne'] at h2
  have hfy : (⌊rect.top / ts⌋ : ℝ) * ts ≤ rect.top := by
    have h := Int.floor_le (rect.top / ts)
    have h2 := mul_le_mul_of_nonneg_right h hts.le
    rwa [div_mul_cancel₀ _ hts.ne'] at h2
  have hsw : 0 < min (rect.right - (⌊rect.left / ts⌋ : ℝ) * ts)
      (b.right - b.left) := lt_min (by linarith) (by linarith)
  have hsh : 0 < min (rect.bottom - (⌊rect.top / ts⌋ : ℝ) * ts)
      (b.bottom - b.top) := lt_min (by linarith) (by linarith)
  have h1 : 1 ≤ ⌈min (rect.right - (⌊rect.left / ts⌋ : ℝ) * ts)
      (b.right - b.left) / ts⌉ := Int.ceil_pos.mpr (div_pos hsw hts)
  have h2 : 1 ≤ ⌈min (rect.bottom - (⌊rect.top / ts⌋ : ℝ) * ts)
      (b.bottom - b.top) / ts⌉ := Int.ceil_pos.mpr (div_pos hsh hts)
  exact one_le_mul_int (le_trans h1 (le_max_right 0 _))
    (le_trans h2 (le_max_right 0 _))

/-- C4 witness: the amended bound evaluated at the counterexample's
concrete viewport, bounds and tile size. -/
theorem drawTileCount_pos_witness :
    1 ≤ drawTileCount ⟨1000, 1000, 1256, 1256⟩ ⟨0, 0, 256, 256⟩ 256 :=
  drawTileCount_pos ⟨1000, 1000, 1256, 1256⟩ ⟨0, 0, 256, 256⟩ 256
    (by norm_num) (by norm_num) (by norm_num) (by norm_num) (by norm_num)
    (by norm_num [DispRect.outside])


end MBTiles
